import Mathlib

/-!
Shallow embedding of the switchboard.js matchmaking library.

Byte buffers (`Uint8Array`) are modelled as `List Nat` whose elements are the
byte values; strings stay `String`.  The external crypto collaborators
(`sha1`, `tweetnacl`) are abstracted as a `NaclModel` parameter, since the
library treats them as opaque primitives.  Fallible code paths (JS `throw`)
are modelled with `Except`.
-/

/-- Byte view of a string: `TextEncoder().encode(s)` / `Buffer.from(s)`.
The strings encoded by the library at these call sites are ASCII hex digests,
for which UTF-8 bytes coincide with the char codes. -/
def strBytes (s : String) : List Nat := s.data.map Char.toNat

/-- JS `s.substr(0, n)`. -/
def strTake (s : String) (n : Nat) : String := String.mk (s.data.take n)

/-- JS truthiness of a `string | null | undefined` value:
`null`/`undefined` and `""` are falsy. -/
def truthyStr : Option String → Bool
  | none => false
  | some s => !(s == "")

/-- Abstract model of the external crypto collaborators: `sha1` returning a
hex string from bytes, and `nacl.sign.detached` / `nacl.sign.detached.verify`. -/
structure NaclModel where
  sha1b : List Nat → String
  sign : List Nat → List Nat → List Nat
  verify : List Nat → List Nat → List Nat → Bool

/-- `sha1(Buffer.from(s))`: SHA-1 of a string's bytes, as a hex string. -/
def NaclModel.sha1s (C : NaclModel) (s : String) : String := C.sha1b (strBytes s)

/-- `BufferWrapper.areEqual(first, second)` (src/buffer.ts):
`first.length === second.length && first.every((value, index) => value === second[index])`. -/
def areEqual (first second : List Nat) : Bool :=
  first.length == second.length &&
    (List.range first.length).all fun index => first.getD index 0 == second.getD index 0

/-- `ClientAuthError` (src/errors.ts). Every throw in `verifyPacket` uses it. -/
inductive SBError where
  | clientAuth (msg : String)
deriving DecidableEq, Repr

/-- Whether an auth result is a thrown `ClientAuthError`. -/
def isClientAuthError : Except SBError Bool → Bool
  | .error (.clientAuth _) => true
  | .ok _ => false

/-!
The `BufferWrapper` reader as used by `Switchboard.verifyPacket`:
`readInt` pops one byte, `read(len)` slices `len` bytes (clamped at the end
of the buffer, as `Uint8Array.slice` clamps), `readRemaining` reads
`this.length` bytes, i.e. everything left.  The packets parsed by the claims
are nonempty, so `readInt`'s out-of-bounds value is immaterial; it is
defaulted to 0 here.
-/

/-- First `reader.readInt()` of `verifyPacket`: `pubLen`. -/
def parsePubLen (packet : List Nat) : Nat := packet.headD 0

/-- Second `reader.readInt()` of `verifyPacket`: `sdpLen`. -/
def parseSdpLen (packet : List Nat) : Nat := (packet.drop 1).headD 0

/-- `reader.read(pubLen)`: the embedded public key bytes. -/
def parsePub (packet : List Nat) : List Nat :=
  ((packet.drop 1).drop 1).take (parsePubLen packet)

/-- `reader.read(sdpLen)`: the embedded SDP-hash bytes. -/
def parseSdp (packet : List Nat) : List Nat :=
  (((packet.drop 1).drop 1).drop (parsePubLen packet)).take (parseSdpLen packet)

/-- `reader.readRemaining()`: the trailing signature bytes. -/
def parseSig (packet : List Nat) : List Nat :=
  (((packet.drop 1).drop 1).drop (parsePubLen packet)).drop (parseSdpLen packet)

/-- `Switchboard.verifyPacket(peerID, packet, wantedID, remoteSdp)`
(src/switchboard.ts lines 1123-1151). `wantedID : Option String` models the
`string | null` parameter; JS truthiness is preserved (`wantedID &&`,
`!peerID`, `!remoteSdp` treat `""` as falsy). -/
def verifyPacket (C : NaclModel) (peerID : String) (packet : List Nat)
    (wantedID : Option String) (remoteSdp : String) : Except SBError Bool :=
  let pub := parsePub packet
  let sdp := parseSdp packet
  let sig := parseSig packet
  let fullId := C.sha1b pub
  let wantedBlock :=
    match wantedID with
    | none => false
    | some w => !(w == "") && !(strTake fullId w.length == w)
  if wantedBlock then
    .error (.clientAuth "The full client ID does not match the desired ID!")
  else if peerID == "" || !(strTake fullId peerID.length == peerID) then
    .error (.clientAuth "Mismatch with provided peer ID during auth!")
  else
    let mtch := C.verify (pub ++ sdp) sig pub
    if !mtch then
      .error (.clientAuth "The signature did not match the packet created by the client.")
    else
      let hashedRemote := strBytes (C.sha1s remoteSdp)
      if !(areEqual sdp hashedRemote) || remoteSdp == "" then
        .error (.clientAuth "The provided signed SDP hash does not match the current remote SDP hash!")
      else
        .ok mtch

/-- `Switchboard.makeSigPacket(localSdp)` (src/switchboard.ts lines 1096-1108):
`writeInt(pub.length); writeInt(sdpHash.length); write(pub); write(sdpHash);
write(sig)`.  `writeInt` stores its argument in a `Uint8Array`, hence the
`% 256` byte coercion. -/
def makeSigPacket (C : NaclModel) (pub sk : List Nat) (localSdp : String) : List Nat :=
  let sdpHash := strBytes (C.sha1s localSdp)
  let sig := C.sign (pub ++ sdpHash) sk
  [pub.length % 256, sdpHash.length % 256] ++ pub ++ sdpHash ++ sig

/-- The `peer.once('data', ...)` handler body of `Switchboard.onPeer`
(src/switchboard.ts lines 1058-1074), reduced to its observable output:
whether the authenticated `'peer'` event is emitted.  The thrown paths
(unstable signaling, missing SDPs, any `verifyPacket` throw) are caught by
the surrounding `try` and lead to `addPeerFailure` + `close`, never to an
emission. -/
def onPeerDataEmitsPeer (C : NaclModel) (isSignalStable : Bool)
    (localSdp remoteSdp : Option String) (peerID : String) (packet : List Nat)
    (wantedID : Option String) : Bool :=
  if !isSignalStable || !truthyStr localSdp || !truthyStr remoteSdp then false
  else
    match verifyPacket C peerID packet wantedID (remoteSdp.getD "") with
    | .ok b => b
    | .error _ => false

/-- A toy instance of the crypto model, used to evaluate the embedding on
concrete inputs: a constant 40-hex-char digest, a constant-length signature. -/
def toyNacl : NaclModel where
  sha1b := fun _ => "aaaaaaaaaaaaaaaaaaaaaaaaaaaaaaaaaaaaaaaa"
  sign := fun _ _ => List.replicate 64 5
  verify := fun _ _ _ => true

/-- `Switchboard.start(swarmID)` line 818:
`this.infoHash = sha1(this.realm + '::' + swarmID)`. -/
def startInfoHash (C : NaclModel) (realm swarmID : String) : String :=
  C.sha1s (realm ++ "::" ++ swarmID)

/-- A second toy crypto model whose digest function is injective on ASCII
strings (it maps each byte back to a character), so that hash equality on
concrete inputs reflects input equality. -/
def toyNaclInj : NaclModel where
  sha1b := fun l => String.mk (l.map Char.ofNat)
  sign := fun _ _ => List.replicate 64 5
  verify := fun _ _ _ => true

/-- A toy 32-byte public key, for evaluating the embedding. -/
def toyPub : List Nat := List.replicate 32 7

/-- A toy 64-byte detached signature. -/
def toySig : List Nat := List.replicate 64 5

/-- A third toy crypto model whose verifier accepts exactly one honestly
signed triple, modelling an ideal forgery-free verifier at that instance. -/
def toyNaclStrict : NaclModel where
  sha1b := fun _ => "aaaaaaaaaaaaaaaaaaaaaaaaaaaaaaaaaaaaaaaa"
  sign := fun _ _ => toySig
  verify := fun m s p =>
    m == toyPub ++ strBytes "aaaaaaaaaaaaaaaaaaaaaaaaaaaaaaaaaaaaaaaa"
      && s == toySig && p == toyPub

/-!
JS objects and `Map`s used as string-keyed dictionaries are modelled as
association lists with in-place replacement: an existing key keeps its
position, a new key is appended (both JS objects and `Map` preserve
insertion order this way).
-/

/-- Dictionary lookup: `obj[k]`, `undefined` when absent. -/
def assocGet {β : Type} (m : List (String × β)) (k : String) : Option β :=
  match m with
  | [] => none
  | p :: rest => if p.1 == k then some p.2 else assocGet rest k

/-- Dictionary update: `obj[k] = v` / `map.set(k, v)`. -/
def assocSet {β : Type} (m : List (String × β)) (k : String) (v : β) :
    List (String × β) :=
  match m with
  | [] => [(k, v)]
  | p :: rest => if p.1 == k then (k, v) :: rest else p :: assocSet rest k v

/-- Dictionary removal: `delete obj[k]` / `map.delete(k)`. -/
def assocDelete {β : Type} (m : List (String × β)) (k : String) :
    List (String × β) :=
  m.filter fun p => !(p.1 == k)

/-- The JS numbers handled by the blacklist machinery: naturals plus
`Infinity`. -/
inductive JsNum where
  | num (n : Nat)
  | inf
deriving DecidableEq, Repr

/-- JS `+` on these numbers. -/
def JsNum.add : JsNum → JsNum → JsNum
  | num a, num b => num (a + b)
  | _, _ => inf

/-- JS `>` on these numbers (`Infinity > Infinity` is false). -/
def JsNum.gt : JsNum → JsNum → Bool
  | num a, num b => decide (b < a)
  | inf, num _ => true
  | _, inf => false

/-- JS truthiness: `0` is falsy, every other count and `Infinity` truthy. -/
def JsNum.truthy : JsNum → Bool
  | num n => !(n == 0)
  | inf => true

/-- The `SBClientOptions` fields consulted by the blacklist and admission
logic.  `none` models an absent (`undefined`) option. -/
structure SBOpts where
  clientMaxRetries : Option Nat
  clientBlacklistDuration : Option JsNum
deriving DecidableEq, Repr

/-- `this.opts.clientMaxRetries || DEFAULT_MAX_RETRIES`: the blacklist
threshold, with JS `||` treating 0 as missing (DEFAULT_MAX_RETRIES = 2). -/
def effMaxRetries (o : SBOpts) : Nat :=
  match o.clientMaxRetries with
  | some n => if n == 0 then 2 else n
  | none => 2

/-- `this.opts.clientMaxRetries || Infinity`: the default failure increment
of `addPeerFailure` (src/switchboard.ts line 1017). -/
def defaultIncrement (o : SBOpts) : JsNum :=
  match o.clientMaxRetries with
  | some n => if n == 0 then .inf else .num n
  | none => .inf

/-- `if (this.opts.clientBlacklistDuration)`: truthiness of the configured
blacklist duration. -/
def durationTruthy (o : SBOpts) : Bool :=
  match o.clientBlacklistDuration with
  | none => false
  | some d => d.truthy

/-- `Switchboard.isBlackListed(peerID)` (src/switchboard.ts lines 990-992):
`this.blacklist[peerID] && this.blacklist[peerID] > (clientMaxRetries || 2)`. -/
def isBlackListed (o : SBOpts) (blacklist : List (String × JsNum))
    (peerID : String) : Bool :=
  match assocGet blacklist peerID with
  | none => false
  | some v => v.truthy && v.gt (.num (effMaxRetries o))

/-- `Switchboard.addPeerFailure(peer, increment)` (src/switchboard.ts lines
1016-1029) acting on the blacklist map.  Returns the updated map and whether
`'peer-blacklisted'` was emitted.  JS details preserved: `if (!increment)`
treats a passed 0 as missing, the default is `clientMaxRetries || Infinity`,
and the delayed `setTimeout` removal is outside this step. -/
def addPeerFailure (o : SBOpts) (blacklist : List (String × JsNum))
    (peerId : String) (increment : Option JsNum) :
    List (String × JsNum) × Bool :=
  let inc := match increment with
    | none => defaultIncrement o
    | some i => if i.truthy then i else defaultIncrement o
  if isBlackListed o blacklist peerId then (blacklist, false)
  else if durationTruthy o then
    let newBl := assocSet blacklist peerId
      (((assocGet blacklist peerId).getD (.num 0)).add inc)
    let emitted := isBlackListed o newBl peerId &&
      !(o.clientBlacklistDuration == some .inf)
    (newBl, emitted)
  else (blacklist, false)

/-- The Switchboard state consulted by `shouldBlockConnection`: the blacklist
map, the keys of the `connected` map, and the matchmaking targets. -/
structure SBState where
  blacklist : List (String × JsNum)
  connected : List String
  wantedSpecificID : Option String
  wantedPeerCount : Nat

/-- `Switchboard.shouldBlockConnection(peerID)` (src/switchboard.ts lines
971-983), without the `peer-seen` emission.  JS details preserved:
`this.wantedSpecificID?.length || peerID.length` falls back to the peer's own
length when the wanted ID is absent or empty, `this.wantedSpecificID && ...`
skips the ID filter when the wanted ID is falsy, and the cap check is
`Object.keys(this.blacklist).length >= this.wantedPeerCount`. -/
def shouldBlockConnection (o : SBOpts) (st : SBState) (peerID : String) : Bool :=
  let shortest := min peerID.length
    (match st.wantedSpecificID with
      | some w => if w.length == 0 then peerID.length else w.length
      | none => peerID.length)
  let peerNorm := strTake peerID shortest
  isBlackListed o st.blacklist peerID
  || (match st.wantedSpecificID with
      | some w => !(w == "") && !(peerNorm == strTake w shortest)
      | none => false)
  || st.connected.contains peerID
  || decide (st.blacklist.length ≥ st.wantedPeerCount)

/-- The state fields assigned by `Switchboard.findHost(hostID)`
(src/switchboard.ts lines 930-935): `wantedPeerCount = 1` and
`wantedSpecificID = hostID`. -/
def findHostState (blacklist : List (String × JsNum)) (connected : List String)
    (hostID : String) : SBState :=
  ⟨blacklist, connected, some hostID, 1⟩

/-- The fields of an inbound tracker message used by the answer branch of
`TrackerConnector.onMessage`; all optional, with JS truthiness.  The answer
payload is opaque. -/
structure TrackerMsg where
  answer : Option String
  peer_id : Option String
  offer_id : Option String
deriving DecidableEq, Repr

/-- A `PeerWrapper` as observed from the tracker connector: its announced id
and the signal payloads fed to it. -/
structure TPeer where
  id : String
  signalled : List String
deriving DecidableEq, Repr

/-- The `msg.answer && msg.peer_id && msg.offer_id` branch of
`TrackerConnector.onMessage` (src/tracker.ts lines 333-344).  The source line
`peer.id = msg.peer_id` executes before the `if (peer)` null check, so when
the peers map has no entry under `offer_id` the property write throws a
TypeError, modelled as `.error`; the `else { debug(msg) }` arm is
unreachable dead code. -/
def onMessageAnswerBranch (peers : List (String × TPeer)) (msg : TrackerMsg) :
    Except String (List (String × TPeer)) :=
  if truthyStr msg.answer && truthyStr msg.peer_id && truthyStr msg.offer_id then
    match assocGet peers (msg.offer_id.getD "") with
    | none => .error "TypeError: cannot set property id of undefined"
    | some peer =>
      let peer1 : TPeer := { peer with id := msg.peer_id.getD "" }
      .ok (assocSet peers (msg.offer_id.getD "")
        { peer1 with signalled := peer1.signalled ++ [msg.answer.getD ""] })
  else .ok peers

/-- The `Subscribable` event registry (src/subscribable.ts): a JS object
mapping event names to `Set`s of callbacks.  Callbacks are identified by an
abstract type `κ` (JS compares them by reference); a `Set` is an
insertion-ordered list without duplicates. -/
structure SubState (κ : Type) where
  events : List (String × List κ)

/-- `Set.add`: appends unless already present. -/
def setAdd {κ : Type} [BEq κ] (s : List κ) (cb : κ) : List κ :=
  if s.contains cb then s else s ++ [cb]

/-- `Subscribable.subscribe(event, callback)` (lines 12-14): ensures the
event entry exists and adds the callback to its set. -/
def subscribe {κ : Type} [BEq κ] (st : SubState κ) (event : String) (cb : κ) :
    SubState κ :=
  ⟨assocSet st.events event (setAdd ((assocGet st.events event).getD []) cb)⟩

/-- The unregister closure returned by `subscribe` (lines 16-21):
`this.events[event].delete(callback)` throws a TypeError when the event's
entry was deleted (`.delete` of `undefined`); otherwise it removes the
callback and drops the event's entry once its set is empty. -/
def unregister {κ : Type} [BEq κ] (st : SubState κ) (event : String) (cb : κ) :
    Except String (SubState κ) :=
  match assocGet st.events event with
  | none => .error "TypeError: cannot read delete of undefined"
  | some s =>
    let s' := s.filter fun c => !(c == cb)
    if s'.length == 0 then .ok ⟨assocDelete st.events event⟩
    else .ok ⟨assocSet st.events event s'⟩

/-- One iteration pass of `emit`'s `listeners.forEach(l => l(val))`:
`throws cb` tells whether the callback raises.  There is no try/catch in
`emit`, so a raise aborts the iteration and propagates; the result collects
the callbacks actually invoked, in order, plus the escaping exception. -/
def emitRun {κ : Type} (throws : κ → Bool) : List κ → List κ × Except Unit Unit
  | [] => ([], .ok ())
  | c :: rest =>
    if throws c then ([c], .error ())
    else
      let r := emitRun throws rest
      (c :: r.1, r.2)

/-- `Subscribable.emit(event, val)` (lines 44-52): looks up the listeners
for the event and invokes each in insertion order. -/
def emitEvent {κ : Type} (st : SubState κ) (event : String) (throws : κ → Bool) :
    List κ × Except Unit Unit :=
  match assocGet st.events event with
  | none => ([], .ok ())
  | some listeners => emitRun throws listeners

/-- An `RTCDataChannel` as consulted by `Peer.send`: its `readyState`. -/
structure ChannelSt where
  readyState : String
deriving DecidableEq, Repr

/-- Events emitted by the `Peer` paths modelled here. -/
inductive PeerEvent where
  | errorEv (msg : String)
  | closeEv
  | disconnectEv
deriving DecidableEq, Repr

/-- The `Peer` state touched by `send` / `fatalError` / `close`
(src/peer.ts).  Sent data is modelled as strings. -/
structure PeerState where
  closed : Bool
  dataChannels : List (String × ChannelSt)
  dataSendQueue : List (String × List String)
  timers : List Nat
deriving DecidableEq, Repr

/-- `Peer.close(intentional = true)` (src/peer.ts lines 283-292): a no-op
when already closed, otherwise clears timers, closes, emits `'close'` and,
when not intentional, `'disconnect'`. -/
def peerClose (p : PeerState) (intentional : Bool) : PeerState × List PeerEvent :=
  if p.closed then (p, [])
  else ({ p with closed := true, timers := [] },
    .closeEv :: if intentional then [] else [.disconnectEv])

/-- `Peer.fatalError(err)` (src/peer.ts lines 398-403): a no-op when closed,
otherwise emits `'error'` and then closes. -/
def fatalError (p : PeerState) (msg : String) : PeerState × List PeerEvent :=
  if p.closed then (p, [])
  else
    let r := peerClose p true
    (r.1, .errorEv msg :: r.2)

/-- `Peer.send(data, channelName = "default")` (src/peer.ts lines 560-572).
A missing channel makes `this.dataChannels[channelName].readyState` throw a
TypeError, which the surrounding `catch` routes into `fatalError`; a non-open
channel enqueues into `dataSendQueue`; an open channel transmits (external
effect, no state change). -/
def peerSend (p : PeerState) (data : String) (channelName : String := "default") :
    PeerState × List PeerEvent :=
  match assocGet p.dataChannels channelName with
  | none => fatalError p "TypeError: cannot read readyState of undefined"
  | some ch =>
    if !(ch.readyState == "open") then
      let q := ((assocGet p.dataSendQueue channelName).getD []) ++ [data]
      ({ p with dataSendQueue := assocSet p.dataSendQueue channelName q }, [])
    else (p, [])

/-- `ClientIntroPacket` (src shared.ts): the first message a client sends to
the Switchboard Peering Server. -/
structure ClientIntroPacket where
  id : String
  pubKey : List Nat
  signature : List Nat
  hosting : Bool
  swarmChannel : Option String
  hostTarget : Option String
  passCode : Option String
deriving DecidableEq, Repr

/-- `SocketInfo` of the peering server, minus the runtime websocket handle
and liveness flag. -/
structure SockInfo where
  shortId : Option String
  id : Option String
  channel : Option String
  hosting : Bool
deriving DecidableEq, Repr

/-- `ChannelInfo` of the peering server: member ids (a `Map` in key order)
and the `count` field maintained alongside it. -/
structure ChannelInfo where
  ids : List String
  count : Nat
deriving DecidableEq, Repr

/-- The frames `validate` can send: `JOIN` notifications
(`{type: WsMessageType.JOIN, data: {id}}`). -/
inductive WsServerMessage where
  | join (id : String)
deriving DecidableEq, Repr

/-- The peering-server state touched by `validate`: the `clients` and
`channels` maps. -/
structure SpsState where
  clients : List (String × SockInfo)
  channels : List (String × ChannelInfo)
deriving DecidableEq, Repr

/-- `sendClient(id, data)`: a frame goes out only when the id is a known
client (`return c && c.ws.send(...)`). -/
def sendClient (clients : List (String × SockInfo)) (id : String)
    (data : WsServerMessage) : List (String × WsServerMessage) :=
  if (assocGet clients id).isSome then [(id, data)] else []

/-- `sendChannel(channel, data)`: relays the frame to each channel member in
order (`channels[channel]?.ids.forEach`). -/
def sendChannel (channels : List (String × ChannelInfo))
    (clients : List (String × SockInfo)) (channel : String)
    (data : WsServerMessage) : List (String × WsServerMessage) :=
  match assocGet channels channel with
  | none => []
  | some ch => ch.ids.flatMap fun id => sendClient clients id data

/-- `addChannelListener(channelId, clientId)` with the get-or-create
`channel(id)` helper folded in. -/
def addChannelListener (channels : List (String × ChannelInfo))
    (channelId clientId : String) : List (String × ChannelInfo) :=
  let ch := (assocGet channels channelId).getD ⟨[], 0⟩
  assocSet channels channelId ⟨setAdd ch.ids clientId, ch.count + 1⟩

/-- `validate(ws, sockInfo, passCode)` of the peering server (src/unnamed
part_005 lines 46-92), given the intro packet `readWait` produced.  Returns
the updated server state, the final `sockInfo` record, and the JOIN frames
sent, or the thrown error.  JS details preserved: `passCode &&` and
`introPacket.swarmChannel ? ... : null` and `if (introPacket.hostTarget)`
are truthiness tests; `sockInfo` is one object aliased from both clients-map
entries, so its later `channel` reassignment is visible through the map. -/
def validate (C : NaclModel) (st : SpsState) (serverPass : Option String)
    (intro : ClientIntroPacket) :
    Except String (SpsState × SockInfo × List (String × WsServerMessage)) :=
  if truthyStr serverPass && !(intro.passCode == serverPass) then
    .error "Passcode mismatch."
  else
    let mtch := C.verify intro.pubKey intro.signature intro.pubKey
    let longId := C.sha1b intro.pubKey
    if !mtch then
      .error "Failed to validate signature for given client public key!"
    else if !(intro.id == longId) then
      .error "The given ID from the client does not match the hash value!"
    else
      let shortId := strTake longId 20
      let channel0 : Option String :=
        if truthyStr intro.swarmChannel then
          some ("#" ++ intro.swarmChannel.getD "")
        else none
      let sock0 : SockInfo :=
        { id := some longId, shortId := some shortId, channel := channel0,
          hosting := intro.hosting }
      let clients0 := assocSet (assocSet st.clients longId sock0) shortId sock0
      let sends0 :=
        if truthyStr channel0 && !(truthyStr intro.hostTarget) then
          sendChannel st.channels clients0 (channel0.getD "") (.join longId)
        else []
      let sock1 : SockInfo :=
        if truthyStr intro.hostTarget then
          { sock0 with channel := some ("host-" ++ intro.hostTarget.getD "") }
        else sock0
      let clients1 :=
        if truthyStr intro.hostTarget then
          assocSet (assocSet clients0 longId sock1) shortId sock1
        else clients0
      let sends1 :=
        if truthyStr intro.hostTarget then
          match assocGet clients1 (intro.hostTarget.getD "") with
          | some host =>
            if host.hosting && truthyStr host.id then
              sendClient clients1 longId (.join (host.id.getD ""))
            else []
          | none => []
        else []
      let channels1 :=
        if truthyStr sock1.channel then
          addChannelListener st.channels (sock1.channel.getD "") longId
        else st.channels
      let sends2 :=
        if intro.hosting then
          sendChannel channels1 clients1 ("host-" ++ shortId) (.join shortId)
            ++ sendChannel channels1 clients1 ("host-" ++ longId) (.join longId)
        else []
      .ok (⟨clients1, channels1⟩, sock1, sends0 ++ sends1 ++ sends2)

/-- The observable outcome of a client intro at the server. -/
structure IntroOutcome where
  state : SpsState
  sends : List (String × WsServerMessage)
  dcSent : Bool
  terminated : Bool
deriving DecidableEq, Repr

/-- The `startServer` connection flow around `validate` (src/unnamed
part_005 lines 207-223): a validation failure is caught, the server sends
the text frame `'dc'` to the client and terminates the socket; on success
the state update and relayed JOIN frames stand. -/
def handleIntro (C : NaclModel) (st : SpsState) (serverPass : Option String)
    (intro : ClientIntroPacket) : IntroOutcome :=
  match validate C st serverPass intro with
  | .error _ => ⟨st, [], true, true⟩
  | .ok (st1, _, sends) => ⟨st1, sends, false, false⟩

/-! ## Theorems -/

theorem areEqual_iff (a b : List Nat) : areEqual a b = true ↔ a = b := by
  unfold areEqual
  simp only [Bool.and_eq_true, beq_iff_eq, List.all_eq_true, List.mem_range]
  constructor
  · rintro ⟨hlen, hpt⟩
    refine List.ext_getElem hlen fun n h1 h2 => ?_
    have h := hpt n h1
    rwa [List.getD_eq_getElem a 0 h1, List.getD_eq_getElem b 0 h2] at h
  · rintro rfl
    exact ⟨rfl, fun i _ => rfl⟩

theorem verifyPacket_ok_sdp (C : NaclModel) (peerID : String) (packet : List Nat)
    (wantedID : Option String) (remoteSdp : String)
    (h : verifyPacket C peerID packet wantedID remoteSdp = .ok true) :
    parseSdp packet = strBytes (C.sha1s remoteSdp) := by
  simp only [verifyPacket] at h
  split_ifs at h with h1 h2 h3 h4
  cases hq : areEqual (parseSdp packet) (strBytes (C.sha1s remoteSdp)) with
  | false => exact absurd (by simp [hq]) h4
  | true => exact (areEqual_iff _ _).mp hq

theorem verifyPacket_error_or_ok (C : NaclModel) (peerID : String) (packet : List Nat)
    (wantedID : Option String) (remoteSdp : String) :
    isClientAuthError (verifyPacket C peerID packet wantedID remoteSdp) = true ∨
    verifyPacket C peerID packet wantedID remoteSdp = .ok true := by
  simp only [verifyPacket]
  split_ifs with h1 h2 h3 h4 <;>
    simp_all [isClientAuthError, Bool.not_eq_true]

/-- C2: for every received auth packet, peerID, wantedID and remoteSdp,
`verifyPacket` throws `ClientAuthError` whenever the packet's embedded sdpHash
bytes differ from the ASCII-hex SHA-1 of the `remoteSdp` argument; it returns
true only when they are byte-for-byte equal; consequently a candidate peer
whose signed sdpHash does not match our remote SDP is never emitted as an
authenticated `'peer'`. -/
theorem C2_sdp_hash_binding (C : NaclModel) (peerID : String) (packet : List Nat)
    (wantedID : Option String) (remoteSdp : String) :
    (parseSdp packet ≠ strBytes (C.sha1s remoteSdp) →
      isClientAuthError (verifyPacket C peerID packet wantedID remoteSdp) = true)
    ∧ (verifyPacket C peerID packet wantedID remoteSdp = .ok true →
      parseSdp packet = strBytes (C.sha1s remoteSdp))
    ∧ (∀ (isSignalStable : Bool) (localSdp : Option String),
      parseSdp packet ≠ strBytes (C.sha1s remoteSdp) →
      onPeerDataEmitsPeer C isSignalStable localSdp (some remoteSdp) peerID packet wantedID = false) := by
  have key : parseSdp packet ≠ strBytes (C.sha1s remoteSdp) →
      isClientAuthError (verifyPacket C peerID packet wantedID remoteSdp) = true := by
    intro hne
    rcases verifyPacket_error_or_ok C peerID packet wantedID remoteSdp with h | h
    · exact h
    · exact absurd (verifyPacket_ok_sdp C peerID packet wantedID remoteSdp h) hne
  refine ⟨key, verifyPacket_ok_sdp C peerID packet wantedID remoteSdp, ?_⟩
  intro stable localSdp hne
  have herr := key hne
  simp only [onPeerDataEmitsPeer, Option.getD_some]
  split_ifs with h1
  · rfl
  · cases hv : verifyPacket C peerID packet wantedID remoteSdp with
    | error e => simp [hv]
    | ok b => rw [hv] at herr; simp [isClientAuthError] at herr

/-- Witness for C2: a concrete packet whose embedded hash bytes mismatch the
hash of the remote SDP is rejected with `ClientAuthError`. -/
theorem C2_sdp_hash_binding_witness :
    parseSdp [1, 1, 0, 9, 9] ≠ strBytes (toyNacl.sha1s "sdp") ∧
    isClientAuthError (verifyPacket toyNacl "aa" [1, 1, 0, 9, 9] none "sdp") = true :=
  ⟨by decide, (C2_sdp_hash_binding toyNacl "aa" [1, 1, 0, 9, 9] none "sdp").1 (by decide)⟩

theorem takeWhile_append_colon (l t : List Char) (h : ∀ c ∈ l, c ≠ ':') :
    (l ++ ':' :: t).takeWhile (fun c => !(c == ':')) = l := by
  induction l with
  | nil => simp [List.takeWhile_cons]
  | cons a l ih =>
    have ha : a ≠ ':' := h a (by simp)
    simp only [List.cons_append, List.takeWhile_cons]
    rw [if_pos (by simp [ha]), ih (fun c hc => h c (by simp [hc]))]

/-- C4 counterexample: two Switchboards with the different realms `"a"` and
`"a::b"`, given user keys `"b::c"` and `"c"`, both hash the same combined
string `"a::b::c"`, so their InfoHashes are equal — under any digest
function, in particular under real SHA-1. -/
theorem C4_counterexample :
    ("a" : String) ≠ "a::b" ∧
    startInfoHash toyNaclInj "a" "b::c" = startInfoHash toyNaclInj "a::b" "c" := by
  constructor
  · decide
  · rfl

/-- C4 (amended): two Switchboards with different realms never obtain equal
InfoHashes even when their user keys collide, provided neither realm contains
the character `':'` and the digest is collision-free on the two combined
strings. -/
theorem C4_realm_separation (C : NaclModel) (realm1 key1 realm2 key2 : String)
    (hne : realm1 ≠ realm2)
    (h1 : ∀ c ∈ realm1.data, c ≠ ':')
    (h2 : ∀ c ∈ realm2.data, c ≠ ':')
    (hcoll : C.sha1s (realm1 ++ "::" ++ key1) = C.sha1s (realm2 ++ "::" ++ key2) →
      (realm1 ++ "::" ++ key1 : String) = realm2 ++ "::" ++ key2) :
    startInfoHash C realm1 key1 ≠ startInfoHash C realm2 key2 := by
  intro h
  apply hne
  have hs := hcoll h
  have hcolons : ("::" : String).data = [':', ':'] := rfl
  have hdata : realm1.data ++ ':' :: ':' :: key1.data
      = realm2.data ++ ':' :: ':' :: key2.data := by
    have hd := congrArg String.data hs
    simpa [String.data_append, hcolons] using hd
  have e1 := takeWhile_append_colon realm1.data (':' :: key1.data) h1
  have e2 := takeWhile_append_colon realm2.data (':' :: key2.data) h2
  have hr : realm1.data = realm2.data := by
    rw [← e1, hdata, e2]
  exact congrArg String.mk hr

/-- Witness for the amended C4 at concrete colon-free realms and an
injective digest. -/
theorem C4_realm_separation_witness :
    startInfoHash toyNaclInj "x" "1" ≠ startInfoHash toyNaclInj "y" "1" :=
  C4_realm_separation toyNaclInj "x" "1" "y" "1" (by decide) (by decide) (by decide)
    (by decide)

theorem strTake_zero (s : String) : strTake s 0 = "" := rfl

/-- C5: after `findHost(h)`, `shouldBlockConnection` admits a seen `peerID`
(returns false) exactly when the first `min(|peerID|, |h|)` characters of
`peerID` and `h` agree and the other blocking conditions are absent: not
blacklisted, not already connected, and the blacklist size below the wanted
peer count (which `findHost` sets to 1). -/
theorem C5_prefix_admission (o : SBOpts) (blacklist : List (String × JsNum))
    (connected : List String) (h p : String) :
    shouldBlockConnection o (findHostState blacklist connected h) p = false ↔
      (strTake p (min p.length h.length) = strTake h (min p.length h.length)
        ∧ isBlackListed o blacklist p = false
        ∧ connected.contains p = false
        ∧ blacklist.length < 1) := by
  by_cases hh : h = ""
  · subst hh
    simp only [shouldBlockConnection, findHostState]
    simp [strTake, Bool.or_eq_false_iff, decide_eq_false_iff_not, Nat.not_le,
      Nat.lt_one_iff]
    tauto
  · have hlen0 : (h.length == 0) = false := by
      simp only [beq_eq_false_iff_ne, ne_eq]
      intro hc
      exact hh (congrArg String.mk (List.length_eq_zero.mp hc))
    simp only [shouldBlockConnection, findHostState, hlen0, Bool.false_eq_true,
      if_false]
    have hne : (h == "") = false := beq_eq_false_iff_ne.mpr hh
    simp [hne, Bool.or_eq_false_iff, Bool.and_eq_false_iff,
      decide_eq_false_iff_not, Nat.not_le, Nat.lt_one_iff, beq_iff_eq,
      Bool.not_eq_false', beq_eq_false_iff_ne]
    tauto

/-- C6 (code bug): with `clientMaxRetries = 3` configured and a positive
blacklist duration, `addPeerFailure(peer)` with no increment argument uses
`this.opts.clientMaxRetries || Infinity = 3` as the increment — not
infinity — so a fresh peer's counter becomes exactly 3, which is not
`> clientMaxRetries`: the peer is NOT blacklisted afterwards, contradicting
the claim and the function's own doc comment ("If increment is not given,
the Peer will be automatically blacklisted"). -/
theorem C6_default_increment_not_blacklisting :
    addPeerFailure ⟨some 3, some (.num 1000)⟩ [] "peerA" none
      = ([("peerA", .num 3)], false)
    ∧ isBlackListed ⟨some 3, some (.num 1000)⟩ [("peerA", .num 3)] "peerA"
      = false := by
  constructor <;> rfl

/-- C7 (code bug): an inbound tracker message carrying `answer`, `peer_id`
and `offer_id` whose `offer_id` has no session in the peers map makes the
handler throw a TypeError (`peer.id = msg.peer_id` runs before the
`if (peer)` check), instead of completing normally and ignoring the
message. -/
theorem C7_missing_offer_throws :
    onMessageAnswerBranch [] ⟨some "sdpanswer", some "peerA", some "offerX"⟩
      = .error "TypeError: cannot set property id of undefined" := rfl

theorem emitRun_all_ok {κ : Type} (throws : κ → Bool) (l : List κ)
    (h : ∀ c ∈ l, throws c = false) : emitRun throws l = (l, .ok ()) := by
  induction l with
  | nil => rfl
  | cons a l ih =>
    simp [emitRun, h a (by simp), ih fun c hc => h c (by simp [hc])]

theorem emitRun_throw {κ : Type} (throws : κ → Bool) (l1 : List κ) (c : κ)
    (l2 : List κ) (h1 : ∀ x ∈ l1, throws x = false) (hc : throws c = true) :
    emitRun throws (l1 ++ c :: l2) = (l1 ++ [c], .error ()) := by
  induction l1 with
  | nil => simp [emitRun, hc]
  | cons a l ih =>
    simp [emitRun, h1 a (by simp), ih fun x hx => h1 x (by simp [hx])]

/-- C8 (amended): `emit` invokes the registered callbacks synchronously in
insertion order; when none throws they all run and no exception escapes, but
when a callback throws, the exception propagates out of `emit` and the
callbacks registered after it never run (`emit` has no try/catch). -/
theorem C8_emit_order_and_propagation {κ : Type} (st : SubState κ)
    (event : String) (throws : κ → Bool) (listeners : List κ)
    (hl : assocGet st.events event = some listeners) :
    ((∀ c ∈ listeners, throws c = false) →
      emitEvent st event throws = (listeners, .ok ()))
    ∧ (∀ l1 c l2, listeners = l1 ++ c :: l2 → (∀ x ∈ l1, throws x = false) →
      throws c = true → emitEvent st event throws = (l1 ++ [c], .error ())) := by
  constructor
  · intro hok
    simp [emitEvent, hl, emitRun_all_ok throws listeners hok]
  · intro l1 c l2 hsplit h1 hc
    subst hsplit
    simp [emitEvent, hl, emitRun_throw throws l1 c l2 h1 hc]

/-- C8 counterexample: with callbacks `[0, 1]` registered for `"e"` and the
first one throwing, `emit` propagates the exception to its caller and the
second callback never runs — nothing is caught or suppressed. -/
theorem C8_counterexample :
    emitEvent (⟨[("e", [0, 1])]⟩ : SubState Nat) "e" (fun c => c == 0)
      = ([0], .error ()) := rfl

/-- Witness for the amended C8 at concrete registries. -/
theorem C8_emit_order_and_propagation_witness :
    emitEvent (⟨[("e", [7, 8])]⟩ : SubState Nat) "e" (fun _ => false)
      = ([7, 8], .ok ())
    ∧ emitEvent (⟨[("e", [7, 8])]⟩ : SubState Nat) "e" (fun c => c == 8)
      = ([7, 8], .error ()) :=
  ⟨(C8_emit_order_and_propagation ⟨[("e", [7, 8])]⟩ "e" (fun _ => false) [7, 8]
      rfl).1 (by decide),
   (C8_emit_order_and_propagation ⟨[("e", [7, 8])]⟩ "e" (fun c => c == 8) [7, 8]
      rfl).2 [7] 8 [] rfl (by decide) (by decide)⟩

theorem assocSet_get_self {β : Type} (m : List (String × β)) (k : String) (v : β)
    (h : assocGet m k = some v) : assocSet m k v = m := by
  induction m with
  | nil => simp [assocGet] at h
  | cons q rest ih =>
    by_cases hq : (q.1 == k) = true
    · have hk : q.1 = k := beq_iff_eq.mp hq
      simp only [assocGet, hq, if_true, Option.some.injEq] at h
      simp only [assocSet, hq, if_true]
      rw [← hk, ← h]
    · simp only [assocGet, hq, Bool.false_eq_true, if_false] at h
      simp only [assocSet, hq, Bool.false_eq_true, if_false]
      rw [ih h]

/-- C9 (amended): a second call of the unregister closure neither throws nor
changes the registry as long as the event's entry still exists, is nonempty
and no longer contains the callback; but in the state where the callback was
the event's last one — so the first call deleted the event's entry — a
second call throws a TypeError instead of being a no-op. -/
theorem C9_unregister_second_call {κ : Type} [BEq κ] [LawfulBEq κ]
    (st : SubState κ) (event : String) (cb : κ) :
    (∀ s, assocGet st.events event = some s → s.contains cb = false → s ≠ [] →
      unregister st event cb = .ok st)
    ∧ (assocGet st.events event = none →
      unregister st event cb = .error "TypeError: cannot read delete of undefined") := by
  constructor
  · intro s hs hnc hne
    have hfilter : (s.filter fun c => !(c == cb)) = s := by
      rw [List.filter_eq_self]
      intro a ha
      have hmemf : cb ∉ s := by
        intro hmem
        have hcon : s.contains cb = true := List.elem_eq_true_of_mem hmem
        rw [hnc] at hcon
        exact Bool.noConfusion hcon
      have hane : a ≠ cb := by
        intro hc
        rw [hc] at ha
        exact hmemf ha
      simp [beq_eq_false_iff_ne.mpr hane]
    have hlen : (s.length == 0) = false := by
      simp only [beq_eq_false_iff_ne, ne_eq]
      exact fun hc => hne (List.length_eq_zero.mp hc)
    simp only [unregister, hs, hfilter, hlen, Bool.false_eq_true, if_false,
      Except.ok.injEq]
    rw [assocSet_get_self st.events event s hs]
  · intro h
    simp [unregister, h]

/-- C9 counterexample: subscribe one callback and call the returned
unregister closure twice.  The first call succeeds and deletes the event's
(now empty) entry; the second call throws a TypeError, so the closure is not
idempotent in that state. -/
theorem C9_counterexample :
    (unregister (subscribe (⟨[]⟩ : SubState Nat) "e" 0) "e" 0).bind
        (fun st => unregister st "e" 0)
      = .error "TypeError: cannot read delete of undefined" := rfl

/-- Witness for the amended C9 at concrete registries. -/
theorem C9_unregister_second_call_witness :
    unregister (⟨[("e", [1])]⟩ : SubState Nat) "e" 0 = .ok ⟨[("e", [1])]⟩
    ∧ unregister (⟨[]⟩ : SubState Nat) "e" 0
      = .error "TypeError: cannot read delete of undefined" :=
  ⟨(C9_unregister_second_call ⟨[("e", [1])]⟩ "e" 0).1 [1] rfl (by decide)
      (by decide),
   (C9_unregister_second_call ⟨[]⟩ "e" 0).2 rfl⟩

/-- C10: on a non-closed Peer, `send` to a channel name with no entry in the
dataChannels map does not enqueue the data: the lookup fails, the error is
caught, and `fatalError` runs — emitting `'error'` and closing the Peer — so
a single send on a missing channel terminates the whole session. -/
theorem C10_send_missing_channel (p : PeerState) (data channelName : String)
    (hopen : p.closed = false)
    (hch : assocGet p.dataChannels channelName = none) :
    peerSend p data channelName
      = ({ p with closed := true, timers := [] },
        [.errorEv "TypeError: cannot read readyState of undefined", .closeEv])
    ∧ (peerSend p data channelName).1.dataSendQueue = p.dataSendQueue
    ∧ (peerSend p data channelName).1.closed = true := by
  have hmain : peerSend p data channelName
      = ({ p with closed := true, timers := [] },
        [.errorEv "TypeError: cannot read readyState of undefined", .closeEv]) := by
    simp [peerSend, hch, fatalError, peerClose, hopen]
  exact ⟨hmain, by rw [hmain], by rw [hmain]⟩

/-- Witness for C10: a concrete open Peer with no channels, sent to
`"default"`, emits `'error'` then `'close'` and ends closed. -/
theorem C10_send_missing_channel_witness :
    peerSend ⟨false, [], [], [3]⟩ "hello" "default"
      = (⟨true, [], [], []⟩,
        [.errorEv "TypeError: cannot read readyState of undefined", .closeEv]) :=
  (C10_send_missing_channel ⟨false, [], [], [3]⟩ "hello" "default" rfl rfl).1

theorem assocGet_set_self {β : Type} (m : List (String × β)) (k : String) (v : β) :
    assocGet (assocSet m k v) k = some v := by
  induction m with
  | nil => simp [assocGet, assocSet]
  | cons q rest ih =>
    by_cases hq : (q.1 == k) = true
    · simp [assocSet, hq, assocGet]
    · simp [assocSet, hq, assocGet, ih]

theorem assocGet_set_ne {β : Type} (m : List (String × β)) (k k' : String) (v : β)
    (h : ¬(k' = k)) : assocGet (assocSet m k' v) k = assocGet m k := by
  induction m with
  | nil => simp [assocGet, assocSet, beq_eq_false_iff_ne.mpr h]
  | cons q rest ih =>
    by_cases hq : (q.1 == k') = true
    · have hq1 : q.1 = k' := beq_iff_eq.mp hq
      simp [assocSet, hq, assocGet, beq_eq_false_iff_ne.mpr h, hq1]
    · simp [assocSet, hq, assocGet, ih]

theorem strTake_length (s : String) (n : Nat) :
    (strTake s n).length = min n s.length := by
  show (s.data.take n).length = min n s.data.length
  rw [List.length_take]

/-- C3: the SPS server's `validate` rejects a client's first (intro) message
if and only if the configured passCode is set and mismatches, or
`nacl.sign.detached.verify(pubKey, signature, pubKey)` fails, or the
packet's `id` field differs from the hex SHA-1 of `pubKey`; on rejection the
client is sent the text frame `'dc'` and terminated, and on success the
client is recorded in the clients map under both its FullID and its
20-character ShortID. -/
theorem C3_validate_gate (C : NaclModel) (st : SpsState)
    (serverPass : Option String) (intro : ClientIntroPacket)
    (hlen : (C.sha1b intro.pubKey).length = 40) :
    ((handleIntro C st serverPass intro).dcSent = true
        ∧ (handleIntro C st serverPass intro).terminated = true
      ↔ ((truthyStr serverPass = true ∧ intro.passCode ≠ serverPass)
        ∨ C.verify intro.pubKey intro.signature intro.pubKey = false
        ∨ intro.id ≠ C.sha1b intro.pubKey))
    ∧ (¬((truthyStr serverPass = true ∧ intro.passCode ≠ serverPass)
        ∨ C.verify intro.pubKey intro.signature intro.pubKey = false
        ∨ intro.id ≠ C.sha1b intro.pubKey) →
      (strTake (C.sha1b intro.pubKey) 20).length = 20
      ∧ ∃ rec : SockInfo,
        assocGet (handleIntro C st serverPass intro).state.clients
          (C.sha1b intro.pubKey) = some rec
        ∧ assocGet (handleIntro C st serverPass intro).state.clients
          (strTake (C.sha1b intro.pubKey) 20) = some rec) := by
  have hshortlen : (strTake (C.sha1b intro.pubKey) 20).length = 20 := by
    rw [strTake_length, hlen]
    decide
  have hne : strTake (C.sha1b intro.pubKey) 20 ≠ C.sha1b intro.pubKey := by
    intro hc
    have := congrArg String.length hc
    rw [hshortlen, hlen] at this
    omega
  have e1 : (truthyStr serverPass && !(intro.passCode == serverPass)) = true
      ↔ (truthyStr serverPass = true ∧ intro.passCode ≠ serverPass) := by
    simp [Bool.and_eq_true, Bool.not_eq_true']
  by_cases c1 : (truthyStr serverPass && !(intro.passCode == serverPass)) = true
  · have hval : handleIntro C st serverPass intro = ⟨st, [], true, true⟩ := by
      simp [handleIntro, validate, c1]
    rw [hval]
    exact ⟨by simpa using Or.inl (e1.mp c1),
      fun hno => absurd (Or.inl (e1.mp c1)) hno⟩
  · by_cases c2 : C.verify intro.pubKey intro.signature intro.pubKey = false
    · have hval : handleIntro C st serverPass intro = ⟨st, [], true, true⟩ := by
        simp [handleIntro, validate, c1, c2]
      rw [hval]
      exact ⟨by simpa using Or.inr (Or.inl c2),
        fun hno => absurd (Or.inr (Or.inl c2)) hno⟩
    · have c2' : C.verify intro.pubKey intro.signature intro.pubKey = true :=
        eq_true_of_ne_false c2
      by_cases c3 : intro.id = C.sha1b intro.pubKey
      · -- success path
        have hcond : ¬((truthyStr serverPass = true ∧ intro.passCode ≠ serverPass)
            ∨ C.verify intro.pubKey intro.signature intro.pubKey = false
            ∨ intro.id ≠ C.sha1b intro.pubKey) := by
          rintro (hx | hx | hx)
          · exact c1 (e1.mpr hx)
          · exact c2 hx
          · exact hx c3
        refine ⟨?_, fun _ => ⟨hshortlen, ?_⟩⟩
        · constructor
          · rintro ⟨hdc, _⟩
            exfalso
            revert hdc
            simp [handleIntro, validate, c1, c2', beq_iff_eq.mpr c3]
          · intro hx
            exact absurd hx hcond
        · by_cases c4 : truthyStr intro.hostTarget = true
          · simp only [handleIntro, validate, c1, c2', beq_iff_eq.mpr c3, c4]
            simp only [Bool.not_true, Bool.false_eq_true, if_false, if_true,
              Bool.and_false, Bool.and_true, Bool.not_false]
            exact ⟨_, by rw [assocGet_set_ne _ _ _ _ hne, assocGet_set_self],
              by rw [assocGet_set_self]⟩
          · have c4' : truthyStr intro.hostTarget = false :=
              Bool.eq_false_iff.mpr c4
            simp only [handleIntro, validate, c1, c2', beq_iff_eq.mpr c3, c4']
            simp only [Bool.not_true, Bool.false_eq_true, if_false, if_true,
              Bool.and_false, Bool.and_true, Bool.not_false]
            exact ⟨_, by rw [assocGet_set_ne _ _ _ _ hne, assocGet_set_self],
              by rw [assocGet_set_self]⟩
      · have hval : handleIntro C st serverPass intro = ⟨st, [], true, true⟩ := by
          simp [handleIntro, validate, c1, c2', beq_eq_false_iff_ne.mpr c3]
        rw [hval]
        exact ⟨by simpa using Or.inr (Or.inr c3),
          fun hno => absurd (Or.inr (Or.inr c3)) hno⟩

/-- Witness for C3: a concrete intro packet that passes validation is
recorded under both its FullID and its 20-character ShortID. -/
theorem C3_validate_gate_witness :
    (strTake (toyNacl.sha1b [1, 2]) 20).length = 20
    ∧ ∃ rec : SockInfo,
      assocGet (handleIntro toyNacl ⟨[], []⟩ none
          ⟨"aaaaaaaaaaaaaaaaaaaaaaaaaaaaaaaaaaaaaaaa", [1, 2], [], false,
            none, none, none⟩).state.clients
        (toyNacl.sha1b [1, 2]) = some rec
      ∧ assocGet (handleIntro toyNacl ⟨[], []⟩ none
          ⟨"aaaaaaaaaaaaaaaaaaaaaaaaaaaaaaaaaaaaaaaa", [1, 2], [], false,
            none, none, none⟩).state.clients
        (strTake (toyNacl.sha1b [1, 2]) 20) = some rec :=
  (C3_validate_gate toyNacl ⟨[], []⟩ none
      ⟨"aaaaaaaaaaaaaaaaaaaaaaaaaaaaaaaaaaaaaaaa", [1, 2], [], false,
        none, none, none⟩ (by decide)).2 (by decide)

theorem verifyPacket_error_of_triple (C : NaclModel) (peerID : String)
    (packet : List Nat) (wantedID : Option String) (remoteSdp : String)
    (M S0 P0 : List Nat)
    (hver : ∀ m s p, C.verify m s p = true ↔ (m = M ∧ s = S0 ∧ p = P0))
    (hneq : ¬(parsePub packet ++ parseSdp packet = M ∧ parseSig packet = S0
      ∧ parsePub packet = P0)) :
    isClientAuthError (verifyPacket C peerID packet wantedID remoteSdp) = true := by
  have hv : C.verify (parsePub packet ++ parseSdp packet) (parseSig packet)
      (parsePub packet) = false := by
    cases hq : C.verify (parsePub packet ++ parseSdp packet) (parseSig packet)
        (parsePub packet) with
    | true => exact absurd ((hver _ _ _).mp hq) hneq
    | false => rfl
  simp only [verifyPacket]
  split_ifs with h1 h2 h3 h4 <;> try rfl
  exact absurd (by rw [hv]; decide) h3

theorem set_ne_of_getElem {α : Type} (l : List α) (j : Nat) (b : α)
    (hj : j < l.length) (hb : b ≠ l[j]) : l.set j b ≠ l := by
  intro hc
  have hj2 : j < (l.set j b).length := by rw [List.length_set]; exact hj
  have h1 : (l.set j b).getD j b = l.getD j b := congrArg (fun x => x.getD j b) hc
  rw [List.getD_eq_getElem _ _ hj2, List.getD_eq_getElem _ _ hj,
    List.getElem_set_self hj2] at h1
  exact hb h1

theorem set_ne_of_getD {α : Type} (l : List α) (j : Nat) (b d : α)
    (hj : j < l.length) (hb : b ≠ l.getD j d) : l.set j b ≠ l := by
  apply set_ne_of_getElem l j b hj
  rwa [List.getD_eq_getElem _ _ hj] at hb

theorem sigPacket_verify_ok (C : NaclModel) (peerID remoteSdp : String)
    (pub H S : List Nat)
    (hpub : pub.length = 32) (hH : H.length = 40)
    (hHr : strBytes (C.sha1s remoteSdp) = H)
    (hsdp : remoteSdp ≠ "") (hpeer : peerID ≠ "")
    (hpfx : strTake (C.sha1b pub) peerID.length = peerID)
    (hver : C.verify (pub ++ H) S pub = true) :
    verifyPacket C peerID (32 :: 40 :: (pub ++ (H ++ S))) none remoteSdp
      = .ok true := by
  have hpp : parsePub (32 :: 40 :: (pub ++ (H ++ S))) = pub := by
    show (pub ++ (H ++ S)).take 32 = pub
    exact List.take_left' hpub
  have hsd : parseSdp (32 :: 40 :: (pub ++ (H ++ S))) = H := by
    show ((pub ++ (H ++ S)).drop 32).take 40 = H
    rw [List.drop_left' hpub]
    exact List.take_left' hH
  have hsg : parseSig (32 :: 40 :: (pub ++ (H ++ S))) = S := by
    show ((pub ++ (H ++ S)).drop 32).drop 40 = S
    rw [List.drop_left' hpub]
    exact List.drop_left' hH
  simp only [verifyPacket, hpp, hsd, hsg, hHr, hver]
  simp [beq_eq_false_iff_ne.mpr hpeer, beq_eq_false_iff_ne.mpr hsdp, hpfx,
    (areEqual_iff H H).mpr rfl]

theorem sigPacket_mutation_throws (C : NaclModel) (peerID remoteSdp : String)
    (pub H S : List Nat)
    (hpub : pub.length = 32) (hH : H.length = 40) (hS : S.length = 64)
    (hver : ∀ m s p, C.verify m s p = true ↔ (m = pub ++ H ∧ s = S ∧ p = pub)) :
    ∀ i, i < (32 :: 40 :: (pub ++ (H ++ S))).length → ∀ b, b < 256 →
      b ≠ (32 :: 40 :: (pub ++ (H ++ S))).getD i 0 →
      isClientAuthError (verifyPacket C peerID
        ((32 :: 40 :: (pub ++ (H ++ S))).set i b) none remoteSdp) = true := by
  have hT : (pub ++ (H ++ S)).length = 136 := by
    simp [hpub, hH, hS]
  intro i hi b _ hbne
  match i, hi with
  | 0, _ =>
    apply verifyPacket_error_of_triple C peerID _ none remoteSdp _ _ _ hver
    rintro ⟨-, -, hp⟩
    have hred : parsePub ((32 :: 40 :: (pub ++ (H ++ S))).set 0 b)
        = (pub ++ (H ++ S)).take b := rfl
    rw [hred] at hp
    have hlen := congrArg List.length hp
    rw [List.length_take, hT, hpub] at hlen
    have hb32 : b ≠ 32 := by simpa using hbne
    omega
  | 1, _ =>
    apply verifyPacket_error_of_triple C peerID _ none remoteSdp _ _ _ hver
    rintro ⟨hm, -, -⟩
    have hredp : parsePub ((32 :: 40 :: (pub ++ (H ++ S))).set 1 b)
        = (pub ++ (H ++ S)).take 32 := rfl
    have hreds : parseSdp ((32 :: 40 :: (pub ++ (H ++ S))).set 1 b)
        = ((pub ++ (H ++ S)).drop 32).take b := rfl
    rw [hredp, hreds, List.take_left' hpub, List.drop_left' hpub] at hm
    have hlen := congrArg List.length hm
    rw [List.length_append, List.length_append, List.length_take,
      List.length_append, hH, hS] at hlen
    have hb40 : b ≠ 40 := by simpa using hbne
    omega
  | (j+2), hj2 =>
    have hj : j < 136 := by
      have h2 := hj2
      simp only [List.length_cons, hT] at h2
      omega
    have hbT : b ≠ (pub ++ (H ++ S)).getD j 0 := by
      simpa using hbne
    have hred : (32 :: 40 :: (pub ++ (H ++ S))).set (j + 2) b
        = 32 :: 40 :: ((pub ++ (H ++ S)).set j b) := rfl
    rw [hred]
    rcases Nat.lt_or_ge j 32 with hc1 | hc1
    · -- mutation inside the public key bytes
      have hjp : j < pub.length := by omega
      have hsplit : (pub ++ (H ++ S)).set j b = pub.set j b ++ (H ++ S) := by
        rw [List.set_append, if_pos hjp]
      have hbp : b ≠ pub.getD j 0 := by
        rwa [List.getD_append _ _ _ _ hjp] at hbT
      apply verifyPacket_error_of_triple C peerID _ none remoteSdp _ _ _ hver
      rintro ⟨-, -, hp⟩
      have hlenset : (pub.set j b).length = 32 := by
        rw [List.length_set]; exact hpub
      have hpp : parsePub (32 :: 40 :: ((pub ++ (H ++ S)).set j b))
          = pub.set j b := by
        show ((pub ++ (H ++ S)).set j b).take 32 = pub.set j b
        rw [hsplit]
        exact List.take_left' hlenset
      rw [hpp] at hp
      exact set_ne_of_getD pub j b 0 hjp hbp hp
    · rcases Nat.lt_or_ge j 72 with hc2 | hc2
      · -- mutation inside the sdp-hash bytes
        have hjH : j - 32 < H.length := by omega
        have hge : pub.length ≤ j := by omega
        have hsplit : (pub ++ (H ++ S)).set j b
            = pub ++ (H.set (j - 32) b ++ S) := by
          rw [List.set_append, if_neg (by omega), List.set_append, hpub,
            if_pos hjH]
        have hbH : b ≠ H.getD (j - 32) 0 := by
          rw [List.getD_append_right _ _ _ _ hge, hpub] at hbT
          rwa [List.getD_append _ _ _ _ hjH] at hbT
        apply verifyPacket_error_of_triple C peerID _ none remoteSdp _ _ _ hver
        rintro ⟨hm, -, -⟩
        have hlenset : (H.set (j - 32) b).length = 40 := by
          rw [List.length_set]; exact hH
        have hpp : parsePub (32 :: 40 :: ((pub ++ (H ++ S)).set j b)) = pub := by
          show ((pub ++ (H ++ S)).set j b).take 32 = pub
          rw [hsplit]
          exact List.take_left' hpub
        have hsd : parseSdp (32 :: 40 :: ((pub ++ (H ++ S)).set j b))
            = H.set (j - 32) b := by
          show (((pub ++ (H ++ S)).set j b).drop 32).take 40 = H.set (j - 32) b
          rw [hsplit, List.drop_left' hpub]
          exact List.take_left' hlenset
        rw [hpp, hsd] at hm
        exact set_ne_of_getD H (j - 32) b 0 hjH hbH (List.append_cancel_left hm)
      · -- mutation inside the signature bytes
        have hjS : j - 72 < S.length := by omega
        have hge : pub.length ≤ j := by omega
        have hgeH : H.length ≤ j - 32 := by omega
        have hidx : j - 32 - H.length = j - 72 := by omega
        have hsplit : (pub ++ (H ++ S)).set j b
            = pub ++ (H ++ S.set (j - 72) b) := by
          rw [List.set_append, if_neg (by omega), List.set_append, hpub,
            if_neg (by omega), hidx]
        have hbS : b ≠ S.getD (j - 72) 0 := by
          rw [List.getD_append_right _ _ _ _ hge, hpub,
            List.getD_append_right _ _ _ _ hgeH, hidx] at hbT
          exact hbT
        apply verifyPacket_error_of_triple C peerID _ none remoteSdp _ _ _ hver
        rintro ⟨-, hs, -⟩
        have hsg : parseSig (32 :: 40 :: ((pub ++ (H ++ S)).set j b))
            = S.set (j - 72) b := by
          show (((pub ++ (H ++ S)).set j b).drop 32).drop 40 = S.set (j - 72) b
          rw [hsplit, List.drop_left' hpub]
          exact List.drop_left' hH
        rw [hsg] at hs
        exact set_ne_of_getD S (j - 72) b 0 hjS hbS hs

/-- C1 (amended): for every Ed25519 key pair (32-byte public key, 64-byte
signature), every NONEMPTY local SDP string and every NONEMPTY peerID that
is a prefix of the key's FullID, `makeSigPacket(localSdp)` produces a buffer
whose byte 0 is 32 (the public-key length), byte 1 is 40 (the SDP-hash
length), bytes 2..34 are the public key, bytes 34..74 are the ASCII-hex
SHA-1 of localSdp, and whose remaining bytes are the Ed25519 signature over
`pub || sdpHash`, verifying under that public key; feeding that exact buffer
into `verifyPacket` with `remoteSdp = localSdp` returns true, while every
single-byte mutation of the buffer makes `verifyPacket` throw
`ClientAuthError`.  The crypto model is assumed ideal at this instance: the
digest is 40 chars and the verifier accepts exactly the honestly signed
triple. -/
theorem C1_sig_packet (C : NaclModel) (pub sk : List Nat)
    (localSdp peerID : String)
    (hpub : pub.length = 32)
    (hhash : (C.sha1s localSdp).length = 40)
    (hsig : (C.sign (pub ++ strBytes (C.sha1s localSdp)) sk).length = 64)
    (hsdp : localSdp ≠ "")
    (hpeer : peerID ≠ "")
    (hpfx : strTake (C.sha1b pub) peerID.length = peerID)
    (hver : ∀ m s p, C.verify m s p = true
      ↔ (m = pub ++ strBytes (C.sha1s localSdp)
        ∧ s = C.sign (pub ++ strBytes (C.sha1s localSdp)) sk ∧ p = pub)) :
    (makeSigPacket C pub sk localSdp).take 2 = [32, 40]
    ∧ ((makeSigPacket C pub sk localSdp).drop 2).take 32 = pub
    ∧ (((makeSigPacket C pub sk localSdp).drop 2).drop 32).take 40
      = strBytes (C.sha1s localSdp)
    ∧ (makeSigPacket C pub sk localSdp).drop 74
      = C.sign (pub ++ strBytes (C.sha1s localSdp)) sk
    ∧ C.verify (pub ++ strBytes (C.sha1s localSdp))
        ((makeSigPacket C pub sk localSdp).drop 74) pub = true
    ∧ verifyPacket C peerID (makeSigPacket C pub sk localSdp) none localSdp
      = .ok true
    ∧ (∀ i, i < (makeSigPacket C pub sk localSdp).length → ∀ b, b < 256 →
      b ≠ (makeSigPacket C pub sk localSdp).getD i 0 →
      isClientAuthError (verifyPacket C peerID
        ((makeSigPacket C pub sk localSdp).set i b) none localSdp) = true) := by
  have hH : (strBytes (C.sha1s localSdp)).length = 40 := by
    show ((C.sha1s localSdp).data.map Char.toNat).length = 40
    rw [List.length_map]
    exact hhash
  have hpacket : makeSigPacket C pub sk localSdp
      = 32 :: 40 :: (pub ++ (strBytes (C.sha1s localSdp)
        ++ C.sign (pub ++ strBytes (C.sha1s localSdp)) sk)) := by
    simp only [makeSigPacket, hpub, hH]
    norm_num [List.append_assoc]
  have hdrop74 : (makeSigPacket C pub sk localSdp).drop 74
      = C.sign (pub ++ strBytes (C.sha1s localSdp)) sk := by
    rw [hpacket]
    show (pub ++ (strBytes (C.sha1s localSdp)
      ++ C.sign (pub ++ strBytes (C.sha1s localSdp)) sk)).drop 72 = _
    rw [show (72 : Nat) = 32 + 40 from rfl, ← List.drop_drop,
      List.drop_left' hpub]
    exact List.drop_left' hH
  refine ⟨?_, ?_, ?_, hdrop74, ?_, ?_, ?_⟩
  · rw [hpacket]
    rfl
  · rw [hpacket]
    show (pub ++ _).take 32 = pub
    exact List.take_left' hpub
  · rw [hpacket]
    show ((pub ++ _).drop 32).take 40 = _
    rw [List.drop_left' hpub]
    exact List.take_left' hH
  · rw [hdrop74]
    exact (hver _ _ _).mpr ⟨rfl, rfl, rfl⟩
  · rw [hpacket]
    exact sigPacket_verify_ok C peerID localSdp pub _ _ hpub hH rfl hsdp hpeer
      hpfx ((hver _ _ _).mpr ⟨rfl, rfl, rfl⟩)
  · rw [hpacket]
    exact sigPacket_mutation_throws C peerID localSdp pub _ _ hpub hH hsig hver

/-- C1 counterexample: the empty peerID is a prefix of every FullID, yet
`verifyPacket` on the exact unmutated signed packet throws `ClientAuthError`
(`if (!peerID || ...)` treats the empty string as falsy), instead of
returning true as the claim states for every prefix. -/
theorem C1_counterexample :
    strTake (toyNacl.sha1b toyPub) (String.length "") = ""
    ∧ isClientAuthError (verifyPacket toyNacl ""
        (makeSigPacket toyNacl toyPub [] "v=0") none "v=0") = true := by
  constructor
  · rfl
  · rfl

/-- Witness for the amended C1 at a concrete key, SDP and peerID, under the
concrete ideal verifier. -/
theorem C1_sig_packet_witness :
    verifyPacket toyNaclStrict "aa"
        (makeSigPacket toyNaclStrict toyPub [] "v=0") none "v=0" = .ok true
    ∧ (∀ i, i < (makeSigPacket toyNaclStrict toyPub [] "v=0").length →
      ∀ b, b < 256 →
      b ≠ (makeSigPacket toyNaclStrict toyPub [] "v=0").getD i 0 →
      isClientAuthError (verifyPacket toyNaclStrict "aa"
        ((makeSigPacket toyNaclStrict toyPub [] "v=0").set i b) none "v=0")
        = true) :=
  ⟨(C1_sig_packet toyNaclStrict toyPub [] "v=0" "aa" (by decide) (by decide)
      (by decide) (by decide) (by decide) (by decide)
      (by intro m s p;
          simp [toyNaclStrict, NaclModel.sha1s, Bool.and_eq_true, beq_iff_eq,
            and_assoc])).2.2.2.2.2.1,
   (C1_sig_packet toyNaclStrict toyPub [] "v=0" "aa" (by decide) (by decide)
      (by decide) (by decide) (by decide) (by decide)
      (by intro m s p;
          simp [toyNaclStrict, NaclModel.sha1s, Bool.and_eq_true, beq_iff_eq,
            and_assoc])).2.2.2.2.2.2⟩
